import Mathlib

/-!
Verification of the dialogue generation and audio assembly pipeline of
pdf2audio (src/app.py), over a shallow embedding of its core functions:
the sentence chunker, the fan-out/fan-in audio assembler, the tabular
dialogue round trip, the edit/re-render session state, the LLM decorator
configuration, the validation retry loop and the prompt improvement block.
Python strings are modelled as Lean String / List Char, bytes as List Nat,
raised exceptions as Except/Option results.
-/

/-! ## Python string primitives used by src/app.py -/

/-- ASCII whitespace as recognised by Python str.split / str.strip and re \s. -/
def isWs (c : Char) : Bool :=
  c == ' ' || c == '\t' || c == '\n' || c == '\r' || c == '\x0b' || c == '\x0c'

/-- Sentence-ending punctuation of the regex (?<=[.!?])\s+ in
chunk_text_by_sentences (src/app.py line 605). -/
def isSentEnd (c : Char) : Bool :=
  c == '.' || c == '!' || c == '?'

/-- Worker for pySplit: cur holds the pending token reversed. -/
def splitWsAux : List Char → List Char → List (List Char)
  | [], cur => if cur = [] then [] else [cur.reverse]
  | c :: rest, cur =>
    if isWs c then
      if cur = [] then splitWsAux rest [] else cur.reverse :: splitWsAux rest []
    else
      splitWsAux rest (c :: cur)

/-- Python str.split() with no separator: maximal runs of non-whitespace. -/
def pySplit (s : List Char) : List (List Char) :=
  splitWsAux s []

/-- Python str.strip(): drop leading and trailing whitespace. -/
def pyStrip (s : List Char) : List Char :=
  ((s.dropWhile isWs).reverse.dropWhile isWs).reverse

/-- str.split() lifted to String. -/
def pySplitStr (s : String) : List String :=
  (pySplit s.data).map String.mk

/-- str.strip() lifted to String. -/
def pyStripStr (s : String) : String :=
  String.mk (pyStrip s.data)

/-- One left-to-right pass of re.split with pattern (?<=[.!?])\s+ :
prevEnd records whether the previous character was [.!?], skipping records
that we are inside the \s+ of a match (greedy, so the whole whitespace run
is consumed), cur is the current piece reversed. -/
def reSplitAux : List Char → Bool → Bool → List Char → List (List Char)
  | [], skipping, _, cur => if skipping then [[]] else [cur.reverse]
  | c :: rest, skipping, prevEnd, cur =>
    if skipping then
      if isWs c then reSplitAux rest true false cur
      else reSplitAux rest false (isSentEnd c) [c]
    else if prevEnd && isWs c then
      cur.reverse :: reSplitAux rest true false []
    else
      reSplitAux rest false (isSentEnd c) (c :: cur)

/-- re.split(r'(?<=[.!?])\s+', text) from src/app.py line 605. -/
def reSplitSentences (s : List Char) : List (List Char) :=
  reSplitAux s false false []

/-! ## chunk_text_by_sentences (src/app.py lines 598-632) -/

/-- The two mutable locals of the chunking loop. -/
structure ChunkState where
  chunks : List (List Char)
  current : List Char
  deriving DecidableEq

/-- The inner word loop body (src/app.py lines 616-625): greedy packing of
words with a one-char separator allowance, truncating a word that alone
overflows an empty chunk. -/
def addWord (maxChars : Nat) (st : ChunkState) (w : List Char) : ChunkState :=
  if st.current.length + w.length + 1 > maxChars then
    if st.current ≠ [] then
      { chunks := st.chunks ++ [pyStrip st.current], current := w }
    else
      { chunks := st.chunks ++ [w.take maxChars], current := [] }
  else
    { chunks := st.chunks,
      current := if st.current = [] then w else st.current ++ ' ' :: w }

/-- The outer sentence loop body (src/app.py lines 608-627). -/
def addSentence (maxChars : Nat) (st : ChunkState) (sentence : List Char) : ChunkState :=
  if st.current.length + sentence.length > maxChars then
    if st.current ≠ [] then
      { chunks := st.chunks ++ [pyStrip st.current], current := sentence }
    else
      (pySplit sentence).foldl (addWord maxChars) st
  else
    { chunks := st.chunks,
      current := if st.current = [] then sentence else st.current ++ ' ' :: sentence }

/-- chunk_text_by_sentences on List Char. -/
def chunkCore (text : List Char) (maxChars : Nat) : List (List Char) :=
  if text.length ≤ maxChars then [text]
  else
    let st := (reSplitSentences text).foldl (addSentence maxChars) ⟨[], []⟩
    if st.current ≠ [] then st.chunks ++ [pyStrip st.current] else st.chunks

/-- chunk_text_by_sentences (src/app.py lines 598-632). -/
def chunk_text_by_sentences (text : String) (maxChars : Nat) : List String :=
  (chunkCore text.data maxChars).map String.mk

/-! ## Data model (src/app.py lines 589-595) -/

/-- The pydantic Literal["speaker-1", "speaker-2"]. -/
inductive Speaker where
  | speaker1
  | speaker2
  deriving DecidableEq

/-- The literal tag of a speaker. -/
def Speaker.str : Speaker → String
  | .speaker1 => "speaker-1"
  | .speaker2 => "speaker-2"

/-- Pydantic validation of a speaker tag (any other string raises
ValidationError, modelled by none). -/
def Speaker.ofString : String → Option Speaker
  | "speaker-1" => some .speaker1
  | "speaker-2" => some .speaker2
  | _ => none

/-- class DialogueItem(BaseModel) (src/app.py lines 589-591). -/
structure DialogueItem where
  text : String
  speaker : Speaker
  deriving DecidableEq

/-- class Dialogue(BaseModel) (src/app.py lines 593-595). -/
structure Dialogue where
  scratchpad : String
  dialogue : List DialogueItem
  deriving DecidableEq

/-! ## Parallel audio assembly (src/app.py lines 805-818 and 963-978)

The synthesis call get_mp3 is a network side effect; the claims about the
assembler quantify over a pure stub in its place (a function from the call
data to audio bytes, bytes being List Nat).  Voice and style instructions
are selected from the per-speaker configuration exactly as in the source. -/

/-- Per-speaker voice settings passed to generate_audio /
render_audio_from_dialogue. -/
structure VoiceConfig where
  speaker1Voice : String
  speaker2Voice : String
  speaker1Instructions : String
  speaker2Instructions : String
  deriving DecidableEq

/-- The RenderResult of the spec: audio bytes, transcript, character count. -/
structure RenderResult where
  audioBytes : List Nat
  transcript : String
  characterCount : Nat
  deriving DecidableEq

/-- transcript_line = f"{line.speaker}: {line.text}" (src/app.py line 808). -/
def transcriptLineOf (line : DialogueItem) : String :=
  line.speaker.str ++ ": " ++ line.text

/-- The submission loop of generate_audio (lines 806-813): one future per
line, paired with its transcript line, in dialogue order.  A future is
identified by its submission index. -/
def submittedFutures (lines : List DialogueItem) : List (Nat × String) :=
  lines.enum.map (fun p => (p.1, transcriptLineOf p.2))

/-- The executor: tasks complete in the order given by perm, each filling
the result slot of its own submission index (the future object it resolves). -/
def fillSlots (synth : Nat → List Nat) (perm : List Nat)
    (slots : List (Option (List Nat))) : List (Option (List Nat)) :=
  perm.foldl (fun s i => s.set i (some (synth i))) slots

/-- The collection loop of generate_audio (lines 815-818): iterate the
futures list in submission order, appending each result and transcript line. -/
def collectResults (slots : List (Option (List Nat))) (futures : List (Nat × String)) :
    List Nat × String :=
  futures.foldl
    (fun acc p => (acc.1 ++ ((slots.getD p.1 none).getD []), acc.2 ++ p.2 ++ "\n\n"))
    ([], "")

/-- generate_audio's fan-out/fan-in (lines 805-818) with a synthesis stub
and an explicit completion order perm for the concurrent tasks. -/
def renderWithCompletionOrder (lines : List DialogueItem) (synth : Nat → List Nat)
    (perm : List Nat) : List Nat × String :=
  collectResults (fillSlots synth perm (List.replicate lines.length none))
    (submittedFutures lines)

/-- Voice selected for a line (src/app.py line 809). -/
def voiceFor (cfg : VoiceConfig) (line : DialogueItem) : String :=
  if line.speaker.str = "speaker-1" then cfg.speaker1Voice else cfg.speaker2Voice

/-- Style instructions selected for a line (src/app.py line 810). -/
def instructionsFor (cfg : VoiceConfig) (line : DialogueItem) : String :=
  if line.speaker.str = "speaker-1" then cfg.speaker1Instructions else cfg.speaker2Instructions

/-- The assembly phase of generate_audio (src/app.py lines 801-820) with
get_mp3 replaced by a pure stub getMp3 text voice instructions: submit one
task per line in order, then collect audio bytes and transcript lines in the
same order; characters accumulates the per-line text lengths. -/
def generate_audio_assembly (dlg : Dialogue) (cfg : VoiceConfig)
    (getMp3 : String → String → String → List Nat) : RenderResult :=
  let futures := dlg.dialogue.map (fun line =>
    (getMp3 line.text (voiceFor cfg line) (instructionsFor cfg line),
     transcriptLineOf line))
  let collected := futures.foldl
    (fun acc p => (acc.1 ++ p.1, acc.2 ++ p.2 ++ "\n\n")) (([] : List Nat), "")
  { audioBytes := collected.1, transcript := collected.2,
    characterCount := (dlg.dialogue.map (fun line => line.text.length)).sum }

/-- gr.Error and pydantic.ValidationError as raised by the edit paths. -/
inductive AppError where
  | grError (message : String)
  | validationError
  deriving DecidableEq

/-! ## Tabular round trip and edit state (src/app.py lines 919-999) -/

/-- dialogue_to_df (src/app.py lines 919-921): the DataFrame is modelled as
its rows, (Speaker, Line) pairs in order. -/
def dialogue_to_df (dlg : Dialogue) : List (String × String) :=
  dlg.dialogue.map (fun item => (item.speaker.str, item.text))

/-- The row comprehension of df_to_dialogue (lines 924-927): each row is
validated in order; an invalid speaker tag raises ValidationError (none). -/
def rowsToItems : List (String × String) → Option (List DialogueItem)
  | [] => some []
  | row :: rest =>
    match Speaker.ofString row.1, rowsToItems rest with
    | some sp, some items => some (⟨row.2, sp⟩ :: items)
    | _, _ => none

/-- df_to_dialogue (src/app.py lines 923-928).  The source gives scratchpad
the default ""; the call in save_dialogue_edits uses that default. -/
def df_to_dialogue (df : List (String × String)) (scratchpad : String) : Option Dialogue :=
  (rowsToItems df).map (fun items => { scratchpad := scratchpad, dialogue := items })

/-- save_dialogue_edits (src/app.py lines 930-944): gr.Error when no
dialogue is cached, otherwise the rebuilt Dialogue, the plain transcript
shown to the user, and the status message. -/
def save_dialogue_edits (df : List (String × String)) (cached : Option Dialogue) :
    Except AppError (Dialogue × String × String) :=
  match cached with
  | none => Except.error (.grError "Nothing to edit yet – run Generate Audio first.")
  | some _ =>
    match df_to_dialogue df "" with
    | none => Except.error .validationError
    | some newDlg =>
      Except.ok (newDlg,
        String.intercalate "\n" (newDlg.dialogue.map transcriptLineOf),
        "Edits saved. Press *Re‑render* to hear them.")

/-- render_audio_from_dialogue (src/app.py lines 947-999) with get_mp3
replaced by a pure stub: gr.Error when no dialogue is cached, otherwise the
same fan-out/fan-in assembly as generate_audio over the cached dialogue. -/
def render_audio_from_dialogue (cached : Option Dialogue) (cfg : VoiceConfig)
    (getMp3 : String → String → String → List Nat) : Except AppError RenderResult :=
  match cached with
  | none => Except.error (.grError "Nothing to re‑render yet – run Generate Audio first.")
  | some dlg =>
    let futures := dlg.dialogue.map (fun item =>
      (getMp3 item.text (voiceFor cfg item) (instructionsFor cfg item),
       transcriptLineOf item))
    let collected := futures.foldl
      (fun acc p => (acc.1 ++ p.1, acc.2 ++ p.2 ++ "\n\n")) (([] : List Nat), "")
    Except.ok { audioBytes := collected.1, transcript := collected.2,
                characterCount := (dlg.dialogue.map (fun item => item.text.length)).sum }

/-! ## conditional_llm (src/app.py lines 659-687) -/

/-- Python truthiness of the api_base argument (None or a string). -/
def pyTruthyStr : Option String → Bool
  | none => false
  | some s => !(s == "")

/-- The keyword arguments handed to the llm decorator; none means the key
is absent from the dict.  api_key is an Option Option because the key can be
present with value None (openai_api_key defaults to None). -/
structure DecoratorKwargs where
  model : String
  api_base : Option String
  api_key : Option (Option String)
  reasoning_effort : Option String
  deriving DecidableEq

/-- conditional_llm's kwargs construction (src/app.py lines 672-679). -/
def conditional_llm (model : String) (api_base : Option String)
    (api_key : Option String) (reasoning_effort : String) : DecoratorKwargs :=
  let base : DecoratorKwargs :=
    { model := model, api_base := none, api_key := none, reasoning_effort := none }
  if pyTruthyStr api_base then
    { base with api_base := api_base }
  else
    let withKey := { base with api_key := some api_key }
    if reasoning_effort ≠ "N/A" then
      { withKey with reasoning_effort := some reasoning_effort }
    else withKey

/-! ## The validation retry loop (src/app.py line 742)

generate_dialogue is decorated with
@retry(retry=retry_if_exception_type(ValidationError)) from tenacity: with
no stop argument the call is re-invoked as long as it raises
ValidationError, any other exception propagates, and a success returns.
The sequence of model outcomes is a function of the attempt number; the
loop is observed through a fuel bound: none means that many attempts did
not finish the call (so no fuel finishing it models an infinite loop). -/

/-- Outcome of one attempt of the decorated generate_dialogue body. -/
inductive GenOutcome where
  | valid (d : Dialogue)
  | invalid
  | otherError (msg : String)
  deriving DecidableEq

/-- The tenacity retry loop, started at attempt start with the given fuel. -/
def retryFrom (attempts : Nat → GenOutcome) : Nat → Nat → Option (Except String Dialogue)
  | _, 0 => none
  | start, fuel + 1 =>
    match attempts start with
    | .valid d => some (Except.ok d)
    | .invalid => retryFrom attempts (start + 1) fuel
    | .otherError m => some (Except.error m)

/-- The decorated generate_dialogue call (src/app.py lines 742-775). -/
def generate_dialogue_call (attempts : Nat → GenOutcome) (fuel : Nat) :
    Option (Except String Dialogue) :=
  retryFrom attempts 0 fuel

/-! ## The requested-improvements block (src/app.py lines 777-798) -/

/-- instruction_improve (src/app.py line 777). -/
def instruction_improve : String :=
  "Based on the original text, please generate an improved version of the dialogue by incorporating the edits, comments and feedback."

/-- edited_transcript_processed (src/app.py line 778). -/
def edited_transcript_processed (edited : String) : String :=
  if edited ≠ "" then
    "\nPreviously generated edited transcript, with specific edits and comments that I want you to carefully address:\n"
      ++ "<edited_transcript>\n" ++ edited ++ "</edited_transcript>"
  else ""

/-- user_feedback_processed before the wrapping (src/app.py line 779). -/
def user_feedback_processed (feedback : String) : String :=
  if feedback ≠ "" then "\nOverall user feedback:\n\n" ++ feedback else ""

/-- The conditional wrapping into the requested_improvements block
(src/app.py lines 781-782). -/
def user_feedback_final (edited feedback : String) : String :=
  if pyStripStr (edited_transcript_processed edited) ≠ ""
      ∨ pyStripStr (user_feedback_processed feedback) ≠ "" then
    "<requested_improvements>" ++ user_feedback_processed feedback ++ "\n\n"
      ++ instruction_improve ++ "</requested_improvements>"
  else user_feedback_processed feedback

/-- What the prompt template appends after its fixed skeleton: the
{edited_transcript}{user_feedback} substitution (src/app.py line 774) of the
processed values passed at lines 796-797. -/
def promptTail (edited feedback : String) : String :=
  edited_transcript_processed edited ++ user_feedback_final edited feedback

/-- needle occurs contiguously inside hay. -/
def containsSub (needle hay : String) : Prop :=
  ∃ a b : List Char, hay.data = a ++ needle.data ++ b

/-- The tokens already accounted for by a chunking state: the tokens of the
flushed chunks followed by the tokens of the pending chunk. -/
def stTokens (st : ChunkState) : List (List Char) :=
  (st.chunks.map pySplit).flatten ++ pySplit st.current

/-! # Theorems -/

/-! ## Basic facts about the Python string primitives -/

theorem speaker_ofString_str (sp : Speaker) : Speaker.ofString sp.str = some sp := by
  cases sp <;> rfl

/-! ## Claim C2: the chunking bound -/

/-- Claim C2: the claim states every chunk returned by chunk_text_by_sentences
has length at most maxChars, except a single over-long word truncated to
exactly maxChars.  The code violates this (and its own docstring, which
promises chunks that do not exceed max_chars): on "Aaaa. Bbbb. Cc." with
maxChars 10 it returns the chunk "Aaaa. Bbbb." of length 11, which holds two
words of length at most 10, so it is not the documented truncated-word
exception.  The sentence-packing guard omits the one-character separator
allowance, and an over-long sentence reached with a non-empty current chunk
is flushed unsplit. -/
theorem chunk_bound_failing_case :
    chunk_text_by_sentences "Aaaa. Bbbb. Cc." 10 = ["Aaaa. Bbbb.", "Cc."]
    ∧ ("Aaaa. Bbbb." : String).length = 11
    ∧ (pySplitStr "Aaaa. Bbbb.").length = 2
    ∧ (pySplitStr "Aaaa. Bbbb.").all (fun w => w.length ≤ 10) = true := by
  decide

/-! ## Claim C5: the tabular round trip -/

theorem rowsToItems_map (items : List DialogueItem) :
    rowsToItems (items.map (fun item => (item.speaker.str, item.text))) = some items := by
  induction items with
  | nil => rfl
  | cons it rest ih => simp [rowsToItems, speaker_ofString_str, ih]

/-- Claim C5: for every Dialogue dlg, importing the exported table
round-trips the lines: df_to_dialogue (dialogue_to_df dlg) (at its default
scratchpad argument "") yields a Dialogue whose dialogue list equals
dlg.dialogue, and whose scratchpad is the empty string regardless of
dlg.scratchpad. -/
theorem df_round_trip (dlg : Dialogue) :
    df_to_dialogue (dialogue_to_df dlg) ""
      = some { scratchpad := "", dialogue := dlg.dialogue } := by
  simp [df_to_dialogue, dialogue_to_df, rowsToItems_map]

/-! ## Claim C6: edit before generate -/

/-- Claim C6: when the session state holds no Dialogue, both edit paths
return the terminal gr.Error (no unhandled crash): save_dialogue_edits does
so for every submitted table, and render_audio_from_dialogue does so for
every voice configuration and every synthesis function — the quantification
over getMp3 shows no synthesis call can influence the outcome, and the
error value carries no updated state. -/
theorem edit_before_generate_is_gr_error (df : List (String × String)) (cfg : VoiceConfig)
    (getMp3 : String → String → String → List Nat) :
    save_dialogue_edits df none
        = Except.error (.grError "Nothing to edit yet – run Generate Audio first.")
    ∧ render_audio_from_dialogue none cfg getMp3
        = Except.error (.grError "Nothing to re‑render yet – run Generate Audio first.") :=
  ⟨rfl, rfl⟩

/-! ## Claim C10: rendering an empty dialogue -/

/-- Claim C10: rendering a Dialogue with an empty dialogue list raises no
error: the assembly of generate_audio yields empty audio bytes, an empty
transcript and character count 0, and render_audio_from_dialogue returns
Except.ok with the same empty result — the non-empty-lines invariant is not
enforced as a precondition. -/
theorem empty_dialogue_renders (scratch : String) (cfg : VoiceConfig)
    (getMp3 : String → String → String → List Nat) :
    generate_audio_assembly ⟨scratch, []⟩ cfg getMp3
        = { audioBytes := [], transcript := "", characterCount := 0 }
    ∧ render_audio_from_dialogue (some ⟨scratch, []⟩) cfg getMp3
        = Except.ok { audioBytes := [], transcript := "", characterCount := 0 } :=
  ⟨rfl, rfl⟩

/-! ## Claim C8: conditional_llm's decorator arguments -/

/-- Claim C8: when api_base is truthy the decorator arguments are exactly
model and api_base (api_key and reasoning_effort absent); otherwise they
hold model and api_key, plus reasoning_effort exactly when the setting is
not the sentinel "N/A". -/
theorem conditional_llm_kwargs_spec (model : String) (api_base : Option String)
    (api_key : Option String) (reasoning_effort : String) :
    (pyTruthyStr api_base = true →
      conditional_llm model api_base api_key reasoning_effort
        = { model := model, api_base := api_base, api_key := none, reasoning_effort := none })
    ∧ (pyTruthyStr api_base = false →
      conditional_llm model api_base api_key reasoning_effort
        = { model := model, api_base := none, api_key := some api_key,
            reasoning_effort :=
              if reasoning_effort ≠ "N/A" then some reasoning_effort else none }) := by
  constructor
  · intro h
    simp [conditional_llm, h]
  · intro h
    simp only [conditional_llm, h, Bool.false_eq_true, if_false]
    split <;> rfl

/-- Claim C8, witness: a custom endpoint forwards only model and api_base. -/
theorem conditional_llm_kwargs_spec_witness :
    conditional_llm "gpt-4o-mini" (some "http://localhost:8000/v1") (some "sk-key") "low"
      = { model := "gpt-4o-mini", api_base := some "http://localhost:8000/v1",
          api_key := none, reasoning_effort := none } :=
  (conditional_llm_kwargs_spec "gpt-4o-mini" (some "http://localhost:8000/v1")
      (some "sk-key") "low").1 (by decide)

/-! ## Claim C7: the validation retry loop -/

theorem retryFrom_all_invalid (attempts : Nat → GenOutcome)
    (h : ∀ j, attempts j = .invalid) :
    ∀ start fuel, retryFrom attempts start fuel = none := by
  intro start fuel
  induction fuel generalizing start with
  | zero => rfl
  | succ n ih => simp [retryFrom, h start, ih]

theorem retryFrom_skip (attempts : Nat → GenOutcome) :
    ∀ (k start fuel : Nat), (∀ j, j < k → attempts (start + j) = .invalid) → k < fuel →
      retryFrom attempts start fuel = retryFrom attempts (start + k) (fuel - k) := by
  intro k
  induction k with
  | zero => intro start fuel _ _; simp
  | succ n ih =>
    intro start fuel h hk
    cases fuel with
    | zero => omega
    | succ m =>
      have h0 : attempts start = .invalid := by simpa using h 0 (Nat.succ_pos n)
      have step : retryFrom attempts start (m + 1) = retryFrom attempts (start + 1) m := by
        simp [retryFrom, h0]
      rw [step]
      have hrest : ∀ j, j < n → attempts (start + 1 + j) = .invalid := by
        intro j hj
        have := h (j + 1) (by omega)
        simpa [Nat.add_assoc, Nat.add_comm 1 j] using this
      rw [ih (start + 1) m hrest (by omega)]
      congr 1 <;> omega

/-- Claim C7: the decorated generate_dialogue retries exactly on
ValidationError and without a bound.  First conjunct: when every attempt
fails validation, no amount of fuel finishes the call (the loop never
returns — no retry limit exists).  Second: when the first success comes at
attempt k after k validation failures, the call returns it.  Third: a
non-ValidationError exception at attempt k propagates immediately instead
of being retried. -/
theorem generate_dialogue_retry_policy (attempts : Nat → GenOutcome) :
    ((∀ j, attempts j = .invalid) →
        ∀ fuel, generate_dialogue_call attempts fuel = none)
    ∧ (∀ k d, attempts k = .valid d → (∀ j, j < k → attempts j = .invalid) →
        ∀ fuel, k < fuel → generate_dialogue_call attempts fuel = some (Except.ok d))
    ∧ (∀ k m, attempts k = .otherError m → (∀ j, j < k → attempts j = .invalid) →
        ∀ fuel, k < fuel → generate_dialogue_call attempts fuel = some (Except.error m)) := by
  refine ⟨fun h fuel => retryFrom_all_invalid attempts h 0 fuel, ?_, ?_⟩
  · intro k d hk hprev fuel hfuel
    unfold generate_dialogue_call
    rw [retryFrom_skip attempts k 0 fuel (by simpa using hprev) hfuel]
    obtain ⟨f, hf⟩ : ∃ f, fuel - k = f + 1 := ⟨fuel - k - 1, by omega⟩
    rw [hf]
    simp [retryFrom, hk]
  · intro k m hk hprev fuel hfuel
    unfold generate_dialogue_call
    rw [retryFrom_skip attempts k 0 fuel (by simpa using hprev) hfuel]
    obtain ⟨f, hf⟩ : ∃ f, fuel - k = f + 1 := ⟨fuel - k - 1, by omega⟩
    rw [hf]
    simp [retryFrom, hk]

/-- Claim C7, witness: two validation failures followed by a valid output
make the call return that output on the third attempt. -/
theorem generate_dialogue_retry_policy_witness :
    generate_dialogue_call
        (fun j => if j < 2 then GenOutcome.invalid else GenOutcome.valid ⟨"", []⟩) 5
      = some (Except.ok ⟨"", []⟩) :=
  (generate_dialogue_retry_policy
      (fun j => if j < 2 then GenOutcome.invalid else GenOutcome.valid ⟨"", []⟩)).2.1
    2 ⟨"", []⟩ (by decide) (by decide) 5 (by decide)

/-! ## The fan-in fold: shared facts -/

theorem strFoldlAppend (l : List String) :
    ∀ s : String, l.foldl (· ++ ·) s = s ++ l.foldl (· ++ ·) "" := by
  induction l with
  | nil => intro s; simp [String.append_empty]
  | cons x xs ih =>
    intro s
    show xs.foldl (· ++ ·) (s ++ x) = s ++ xs.foldl (· ++ ·) ("" ++ x)
    rw [ih (s ++ x), ih ("" ++ x), String.empty_append, String.append_assoc]

theorem strJoin_cons (s : String) (l : List String) :
    String.join (s :: l) = s ++ String.join l := by
  show l.foldl (· ++ ·) ("" ++ s) = _
  rw [strFoldlAppend, String.empty_append]
  rfl

/-- The collection loop of both renderers: folding append of per-future audio
and transcript lines equals the flat concatenation in list order. -/
theorem assembleFold {α : Type} (g : α → List Nat) (h : α → String) :
    ∀ (l : List α) (a : List Nat) (t : String),
      l.foldl (fun acc p => (acc.1 ++ g p, acc.2 ++ h p ++ "\n\n")) (a, t)
        = (a ++ (l.map g).flatten,
           t ++ String.join (l.map (fun p => h p ++ "\n\n"))) := by
  intro l
  induction l with
  | nil => intro a t; simp [String.join, String.append_empty]
  | cons x xs ih =>
    intro a t
    show xs.foldl _ (a ++ g x, t ++ h x ++ "\n\n") = _
    rw [ih (a ++ g x) (t ++ h x ++ "\n\n")]
    simp [List.append_assoc, String.append_assoc, strJoin_cons]

/-! ## Claim C4: shape of the render result -/

/-- Claim C4: for every Dialogue the assembled transcript is the ordered
concatenation of "speaker: text" lines joined by blank lines and the audio
is the ordered concatenation of per-line synthesis output; concretely, the
two-line dialogue of the spec rendered with a stub giving byte 65 ("A") to
speaker-1's voice and 66 ("B") to speaker-2's yields audio [65, 66] and
transcript "speaker-1: Hello\n\nspeaker-2: Hi there\n\n". -/
theorem render_result_shape (dlg : Dialogue) (cfg : VoiceConfig)
    (getMp3 : String → String → String → List Nat) :
    ((generate_audio_assembly dlg cfg getMp3).audioBytes
        = (dlg.dialogue.map
            (fun l => getMp3 l.text (voiceFor cfg l) (instructionsFor cfg l))).flatten
      ∧ (generate_audio_assembly dlg cfg getMp3).transcript
        = String.join (dlg.dialogue.map (fun l => transcriptLineOf l ++ "\n\n")))
    ∧ ((generate_audio_assembly ⟨"x", [⟨"Hello", .speaker1⟩, ⟨"Hi there", .speaker2⟩]⟩
          ⟨"alloy", "echo", "", ""⟩
          (fun _ v _ => if v = "alloy" then [65] else [66])).audioBytes = [65, 66]
      ∧ (generate_audio_assembly ⟨"x", [⟨"Hello", .speaker1⟩, ⟨"Hi there", .speaker2⟩]⟩
          ⟨"alloy", "echo", "", ""⟩
          (fun _ v _ => if v = "alloy" then [65] else [66])).transcript
        = "speaker-1: Hello\n\nspeaker-2: Hi there\n\n") := by
  refine ⟨?_, by decide⟩
  simp only [generate_audio_assembly]
  rw [assembleFold Prod.fst Prod.snd]
  constructor
  · simp [List.map_map, Function.comp_def, String.empty_append]
  · simp [List.map_map, Function.comp_def, String.empty_append]

/-! ## Claim C1: render order invariance -/

theorem fillSlots_not_mem (synth : Nat → List Nat) :
    ∀ (perm : List Nat) (slots : List (Option (List Nat))) (i : Nat), i ∉ perm →
      (fillSlots synth perm slots)[i]? = slots[i]? := by
  intro perm
  induction perm with
  | nil => intro slots i _; rfl
  | cons j rest ih =>
    intro slots i hi
    have hir : i ∉ rest := fun h => hi (List.mem_cons_of_mem j h)
    have hij : ¬ (j = i) := fun h => hi (h ▸ List.mem_cons_self j rest)
    show (fillSlots synth rest (slots.set j (some (synth j))))[i]? = _
    rw [ih (slots.set j (some (synth j))) i hir, List.getElem?_set, if_neg hij]

theorem fillSlots_mem (synth : Nat → List Nat) :
    ∀ (perm : List Nat) (slots : List (Option (List Nat))) (i : Nat),
      i < slots.length → i ∈ perm →
      (fillSlots synth perm slots)[i]? = some (some (synth i)) := by
  intro perm
  induction perm with
  | nil => intro slots i _ h; cases h
  | cons j rest ih =>
    intro slots i hlen hmem
    show (fillSlots synth rest (slots.set j (some (synth j))))[i]? = _
    by_cases hr : i ∈ rest
    · exact ih _ i (by simpa using hlen) hr
    · have hij : i = j := by
        rcases List.mem_cons.mp hmem with h | h
        · exact h
        · exact absurd h hr
      subst hij
      rw [fillSlots_not_mem synth rest _ i hr, List.getElem?_set]
      simp [hlen]

/-- Claim C1: for every dialogue line list, every per-line synthesis stub
and every completion-time permutation of the concurrently submitted tasks,
the assembly collects results in original line order: slot i of the output
holds the stub result for line i, so the audio equals the in-order
concatenation over the line indices and the transcript follows the line
order, independently of perm. -/
theorem render_order_invariance (lines : List DialogueItem) (synth : Nat → List Nat)
    (perm : List Nat) (hperm : perm.Perm (List.range lines.length)) :
    renderWithCompletionOrder lines synth perm
      = (((List.range lines.length).map synth).flatten,
         String.join (lines.map (fun l => transcriptLineOf l ++ "\n\n"))) := by
  unfold renderWithCompletionOrder collectResults
  rw [assembleFold (fun p => (((fillSlots synth perm
        (List.replicate lines.length none)).getD p.1 none).getD []))
      Prod.snd (submittedFutures lines) [] ""]
  have hslot : ∀ p ∈ submittedFutures lines,
      (((fillSlots synth perm (List.replicate lines.length none)).getD p.1 none).getD [])
        = synth p.1 := by
    intro p hp
    have hlt : p.1 < lines.length := by
      unfold submittedFutures at hp
      obtain ⟨q, hq, rfl⟩ := List.mem_map.mp hp
      exact List.fst_lt_of_mem_enum hq
    have hmem : p.1 ∈ perm := hperm.mem_iff.mpr (List.mem_range.mpr hlt)
    rw [List.getD_eq_getElem?_getD,
      fillSlots_mem synth perm _ p.1 (by simpa using hlt) hmem]
    rfl
  rw [Prod.mk.injEq]
  constructor
  · rw [List.map_congr_left hslot]
    unfold submittedFutures
    simp [List.map_map, Function.comp_def, String.empty_append, List.enum_map_fst]
    rw [show (fun x : Nat × DialogueItem => synth x.1) = (synth ∘ Prod.fst) from rfl]
    rw [← List.map_map, List.enum_map_fst]
  · unfold submittedFutures
    simp [List.map_map, Function.comp_def, String.empty_append]
    rw [show (fun p : Nat × DialogueItem => transcriptLineOf p.2 ++ "\n\n")
        = ((fun l => transcriptLineOf l ++ "\n\n") ∘ Prod.snd) from rfl]
    rw [← List.map_map, List.enum_map_snd]

/-- Claim C1, witness: with the reverse completion order [1, 0] and an
index-marker stub, the two-line dialogue still assembles in forward index
order. -/
theorem render_order_invariance_witness :
    renderWithCompletionOrder [⟨"Hello", .speaker1⟩, ⟨"Hi there", .speaker2⟩]
        (fun i => [i]) [1, 0]
      = (((List.range 2).map (fun i => [i])).flatten,
         String.join ([(⟨"Hello", .speaker1⟩ : DialogueItem), ⟨"Hi there", .speaker2⟩].map
           (fun l => transcriptLineOf l ++ "\n\n"))) :=
  render_order_invariance [⟨"Hello", .speaker1⟩, ⟨"Hi there", .speaker2⟩]
    (fun i => [i]) [1, 0] (by decide)

/-! ## Claim C9: the requested-improvements block -/

theorem mem_dropWhile_of_not (p : Char → Bool) :
    ∀ (l : List Char) (c : Char), p c = false → c ∈ l → c ∈ l.dropWhile p := by
  intro l
  induction l with
  | nil => intro c _ h; cases h
  | cons x xs ih =>
    intro c hc hmem
    by_cases hpx : p x = true
    · rw [List.dropWhile_cons_of_pos hpx]
      rcases List.mem_cons.mp hmem with rfl | h
      · rw [hpx] at hc; cases hc
      · exact ih c hc h
    · rw [List.dropWhile_cons_of_neg hpx]
      exact hmem

theorem pyStrip_ne_nil_of_mem (s : List Char) (c : Char)
    (hc : isWs c = false) (hmem : c ∈ s) : pyStrip s ≠ [] := by
  intro h
  unfold pyStrip at h
  rw [List.reverse_eq_nil_iff, List.dropWhile_eq_nil_iff] at h
  have h1 : c ∈ s.dropWhile isWs := mem_dropWhile_of_not isWs s c hc hmem
  have h2 := h c (List.mem_reverse.mpr h1)
  rw [hc] at h2
  cases h2

theorem pyStripStr_ne_empty (s : String) (c : Char)
    (hc : isWs c = false) (hmem : c ∈ s.data) : pyStripStr s ≠ "" := by
  intro h
  apply pyStrip_ne_nil_of_mem s.data c hc hmem
  have h2 : (pyStripStr s).data = ("" : String).data := by rw [h]
  simpa [pyStripStr] using h2

/-- Claim C9: the prompt's trailing improvements material contains the
requested_improvements block exactly when the prior transcript or the user
feedback is non-empty; whenever that tail is present it carries the prior
transcript (when non-empty, inside its edited_transcript section preceding
the block) and the feedback (when non-empty, inside the block); when both
are empty the appended material is empty, so the prompt carries neither. -/
theorem requested_improvements_spec (edited feedback : String) :
    (containsSub "<requested_improvements>" (promptTail edited feedback)
        ↔ (edited ≠ "" ∨ feedback ≠ ""))
    ∧ (edited ≠ "" → containsSub edited (promptTail edited feedback))
    ∧ (feedback ≠ "" → containsSub feedback (promptTail edited feedback))
    ∧ (edited = "" → feedback = "" → promptTail edited feedback = "") := by
  by_cases hE : edited = ""
  · by_cases hF : feedback = ""
    · subst hE; subst hF
      have htail : promptTail "" "" = "" := by decide
      refine ⟨?_, fun h => absurd rfl h, fun h => absurd rfl h, fun _ _ => htail⟩
      rw [htail]
      constructor
      · rintro ⟨a, b, hab⟩
        have hlen := congrArg List.length hab
        simp [List.length_append] at hlen
        omega
      · rintro (h | h) <;> exact absurd rfl h
    · subst hE
      have hufp : user_feedback_processed feedback
          = "\nOverall user feedback:\n\n" ++ feedback := by
        rw [user_feedback_processed, if_pos hF]
      have hcond : pyStripStr (edited_transcript_processed "") ≠ ""
          ∨ pyStripStr (user_feedback_processed feedback) ≠ "" := by
        refine Or.inr ?_
        rw [hufp]
        refine pyStripStr_ne_empty _ 'O' (by decide) ?_
        rw [String.data_append]
        exact List.mem_append_left _ (by decide)
      have htail : promptTail "" feedback
          = "<requested_improvements>" ++ ("\nOverall user feedback:\n\n" ++ feedback)
            ++ "\n\n" ++ instruction_improve ++ "</requested_improvements>" := by
        rw [promptTail, user_feedback_final, if_pos hcond, hufp]
        rw [show edited_transcript_processed "" = "" from rfl, String.empty_append]
      refine ⟨?_, fun h => absurd rfl h, fun _ => ?_, fun _ h => absurd h hF⟩
      · rw [htail]
        constructor
        · intro _; exact Or.inr hF
        · intro _
          exact ⟨[], (("\nOverall user feedback:\n\n" ++ feedback)
            ++ "\n\n" ++ instruction_improve ++ "</requested_improvements>").data,
            by simp [String.data_append, List.append_assoc]⟩
      · rw [htail]
        exact ⟨("<requested_improvements>" ++ "\nOverall user feedback:\n\n").data,
          ("\n\n" ++ instruction_improve ++ "</requested_improvements>").data,
          by simp [String.data_append, List.append_assoc]⟩
  · have hetp : edited_transcript_processed edited
        = "\nPreviously generated edited transcript, with specific edits and comments that I want you to carefully address:\n"
          ++ "<edited_transcript>\n" ++ edited ++ "</edited_transcript>" := by
      rw [edited_transcript_processed, if_pos hE]
    have hcond : pyStripStr (edited_transcript_processed edited) ≠ ""
        ∨ pyStripStr (user_feedback_processed feedback) ≠ "" := by
      refine Or.inl ?_
      rw [hetp]
      refine pyStripStr_ne_empty _ 'P' (by decide) ?_
      rw [String.data_append, String.data_append, String.data_append]
      refine List.mem_append_left _ (List.mem_append_left _ (List.mem_append_left _ ?_))
      decide
    have htail : promptTail edited feedback
        = edited_transcript_processed edited
          ++ ("<requested_improvements>" ++ user_feedback_processed feedback ++ "\n\n"
              ++ instruction_improve ++ "</requested_improvements>") := by
      rw [promptTail, user_feedback_final, if_pos hcond]
    refine ⟨?_, fun _ => ?_, fun hF => ?_, fun h => absurd h hE⟩
    · rw [htail]
      constructor
      · intro _; exact Or.inl hE
      · intro _
        exact ⟨(edited_transcript_processed edited).data,
          (user_feedback_processed feedback ++ "\n\n"
            ++ instruction_improve ++ "</requested_improvements>").data,
          by simp [String.data_append, List.append_assoc]⟩
    · rw [htail, hetp]
      exact ⟨("\nPreviously generated edited transcript, with specific edits and comments that I want you to carefully address:\n"
          ++ "<edited_transcript>\n").data,
        ("</edited_transcript>"
          ++ ("<requested_improvements>" ++ user_feedback_processed feedback ++ "\n\n"
              ++ instruction_improve ++ "</requested_improvements>")).data,
        by simp [String.data_append, List.append_assoc]⟩
    · have hufp : user_feedback_processed feedback
          = "\nOverall user feedback:\n\n" ++ feedback := by
        rw [user_feedback_processed, if_pos hF]
      rw [htail, hufp]
      exact ⟨(edited_transcript_processed edited
          ++ ("<requested_improvements>" ++ "\nOverall user feedback:\n\n")).data,
        ("\n\n" ++ instruction_improve ++ "</requested_improvements>").data,
        by simp [String.data_append, List.append_assoc]⟩

/-- Claim C9, witness: a non-empty prior transcript alone produces the block
and appears in the prompt tail. -/
theorem requested_improvements_spec_witness :
    containsSub "add a summary" (promptTail "add a summary" "") :=
  (requested_improvements_spec "add a summary" "").2.1 (by decide)

/-! ## Claim C3: chunking order preservation -/

theorem splitWsAux_ws_append (c : Char) (hc : isWs c = true) :
    ∀ (a b cur : List Char), splitWsAux (a ++ c :: b) cur = splitWsAux a cur ++ pySplit b := by
  intro a
  induction a with
  | nil =>
    intro b cur
    show splitWsAux (c :: b) cur = _
    by_cases hcur : cur = []
    · simp [splitWsAux, hc, hcur, pySplit]
    · simp [splitWsAux, hc, hcur, pySplit]
  | cons x a' ih =>
    intro b cur
    show splitWsAux (x :: (a' ++ c :: b)) cur = splitWsAux (x :: a') cur ++ pySplit b
    by_cases hx : isWs x = true
    · by_cases hcur : cur = []
      · simp [splitWsAux, hx, hcur, ih]
      · simp [splitWsAux, hx, hcur, ih]
    · simp only [splitWsAux, Bool.not_eq_true] at hx ⊢
      rw [hx]
      simp only [Bool.false_eq_true, if_false]
      exact ih b (x :: cur)

theorem pySplit_dropWhile (s : List Char) :
    pySplit (s.dropWhile isWs) = pySplit s := by
  induction s with
  | nil => rfl
  | cons x s' ih =>
    by_cases hx : isWs x = true
    · rw [List.dropWhile_cons_of_pos hx]
      rw [ih]
      show _ = splitWsAux (x :: s') []
      simp [splitWsAux, hx, pySplit]
    · rw [List.dropWhile_cons_of_neg (by simpa using hx)]

theorem splitWsAux_all_ws :
    ∀ (v : List Char), (∀ c ∈ v, isWs c = true) → splitWsAux v [] = [] := by
  intro v
  induction v with
  | nil => intro _; rfl
  | cons x v' ih =>
    intro h
    show splitWsAux (x :: v') [] = []
    simp [splitWsAux, h x (List.mem_cons_self x v')]
    exact ih (fun c hc => h c (List.mem_cons_of_mem x hc))

theorem splitWsAux_append_all_ws (u v cur : List Char)
    (hv : ∀ c ∈ v, isWs c = true) : splitWsAux (u ++ v) cur = splitWsAux u cur := by
  cases v with
  | nil => rw [List.append_nil]
  | cons c v' =>
    rw [splitWsAux_ws_append c (hv c (List.mem_cons_self c v')) u v' cur]
    rw [show pySplit v' = splitWsAux v' [] from rfl]
    rw [splitWsAux_all_ws v' (fun d hd => hv d (List.mem_cons_of_mem c hd))]
    rw [List.append_nil]

theorem pySplit_pyStrip (s : List Char) : pySplit (pyStrip s) = pySplit s := by
  have decomp : s.dropWhile isWs
      = ((s.dropWhile isWs).reverse.dropWhile isWs).reverse
        ++ ((s.dropWhile isWs).reverse.takeWhile isWs).reverse := by
    conv_lhs => rw [← List.reverse_reverse (s.dropWhile isWs)]
    rw [← List.takeWhile_append_dropWhile (p := isWs) (l := (s.dropWhile isWs).reverse)]
    rw [List.reverse_append]
    rw [List.takeWhile_append_dropWhile]
  have h2 : pySplit (s.dropWhile isWs) = pySplit (pyStrip s) := by
    rw [pyStrip]
    conv_lhs => rw [decomp]
    exact splitWsAux_append_all_ws _ _ []
      (fun c hc => List.mem_takeWhile_imp (List.mem_reverse.mp hc))
  rw [← h2, pySplit_dropWhile]

theorem reSplit_tokens_aux :
    ∀ (s : List Char),
      (∀ (prevEnd : Bool) (cur : List Char),
        ((reSplitAux s false prevEnd cur).map pySplit).flatten = pySplit (cur.reverse ++ s))
      ∧ (((reSplitAux s true false []).map pySplit).flatten = pySplit s) := by
  intro s
  induction s with
  | nil =>
    constructor
    · intro prevEnd cur
      show ([cur.reverse].map pySplit).flatten = pySplit (cur.reverse ++ [])
      simp
    · rfl
  | cons c s' ih =>
    constructor
    · intro prevEnd cur
      show ((if false then _ else if prevEnd && isWs c then
          cur.reverse :: reSplitAux s' true false []
        else reSplitAux s' false (isSentEnd c) (c :: cur)).map pySplit).flatten = _
      simp only [Bool.false_eq_true, if_false]
      by_cases h : (prevEnd && isWs c) = true
      · rw [if_pos h]
        have hc : isWs c = true := (Bool.and_eq_true .. ▸ h).2
        rw [List.map_cons, List.flatten_cons, ih.2]
        rw [show pySplit (cur.reverse ++ c :: s')
            = splitWsAux (cur.reverse ++ c :: s') [] from rfl]
        rw [splitWsAux_ws_append c hc cur.reverse s' []]
        rfl
      · rw [if_neg h]
        rw [ih.1 (isSentEnd c) (c :: cur)]
        rw [List.reverse_cons, List.append_assoc, List.singleton_append]
    · show ((if true then if isWs c then reSplitAux s' true false []
          else reSplitAux s' false (isSentEnd c) [c] else _).map pySplit).flatten = _
      simp only [if_true]
      by_cases hc : isWs c = true
      · rw [if_pos hc, ih.2]
        show _ = splitWsAux (c :: s') []
        simp [splitWsAux, hc, pySplit]
      · rw [if_neg hc, ih.1 (isSentEnd c) [c]]
        rfl

theorem reSplit_tokens (s : List Char) :
    ((reSplitSentences s).map pySplit).flatten = pySplit s := by
  have h := (reSplit_tokens_aux s).1 false []
  simpa [reSplitSentences] using h

theorem splitWsAux_mem :
    ∀ (s cur : List Char), (∀ c ∈ cur, isWs c = false) →
      ∀ w ∈ splitWsAux s cur, w ≠ [] ∧ ∀ c ∈ w, isWs c = false := by
  intro s
  induction s with
  | nil =>
    intro cur hcur w hw
    by_cases h : cur = []
    · simp [splitWsAux, h] at hw
    · simp [splitWsAux, h] at hw
      subst hw
      refine ⟨by simpa using h, fun c hc => hcur c (List.mem_reverse.mp hc)⟩
  | cons x s' ih =>
    intro cur hcur w hw
    by_cases hx : isWs x = true
    · by_cases h : cur = []
      · simp [splitWsAux, hx, h] at hw
        exact ih [] (by simp) w hw
      · simp [splitWsAux, hx, h] at hw
        rcases hw with rfl | hw
        · refine ⟨by simpa using h, fun c hc => hcur c (List.mem_reverse.mp hc)⟩
        · exact ih [] (by simp) w hw
    · have hx' : isWs x = false := by simpa using hx
      simp only [splitWsAux, hx', Bool.false_eq_true, if_false] at hw
      refine ih (x :: cur) ?_ w hw
      intro c hc
      rcases List.mem_cons.mp hc with rfl | hc
      · exact hx'
      · exact hcur c hc

theorem splitWsAux_no_ws :
    ∀ (s cur : List Char), (∀ c ∈ s, isWs c = false) →
      splitWsAux s cur = if cur.reverse ++ s = [] then [] else [cur.reverse ++ s] := by
  intro s
  induction s with
  | nil =>
    intro cur _
    show (if cur = [] then [] else [cur.reverse]) = _
    by_cases h : cur = []
    · simp [h]
    · simp [h, List.reverse_eq_nil_iff]
  | cons x s' ih =>
    intro cur h
    have hx : isWs x = false := h x (List.mem_cons_self x s')
    show (if isWs x = true then _ else splitWsAux s' (x :: cur)) = _
    rw [hx]
    simp only [Bool.false_eq_true, if_false]
    rw [ih (x :: cur) (fun c hc => h c (List.mem_cons_of_mem x hc))]
    simp [List.reverse_cons, List.append_assoc]

theorem pySplit_single (w : List Char) (hne : w ≠ [])
    (hw : ∀ c ∈ w, isWs c = false) : pySplit w = [w] := by
  rw [pySplit, splitWsAux_no_ws w [] hw]
  simp [hne]

theorem pySplit_nil : pySplit [] = [] := rfl

theorem stTokens_addWord (maxChars : Nat) (st : ChunkState) (w : List Char)
    (hne : w ≠ []) (hw : ∀ c ∈ w, isWs c = false) (hlen : w.length ≤ maxChars) :
    stTokens (addWord maxChars st w) = stTokens st ++ [w] := by
  rw [addWord]
  by_cases hover : st.current.length + w.length + 1 > maxChars
  · rw [if_pos hover]
    by_cases hcur : st.current ≠ []
    · rw [if_pos hcur]
      simp [stTokens, pySplit_pyStrip, pySplit_single w hne hw, List.append_assoc]
    · rw [if_neg hcur]
      push_neg at hcur
      rw [List.take_of_length_le hlen]
      simp [stTokens, hcur, pySplit_single w hne hw, pySplit_nil]
  · rw [if_neg hover]
    by_cases hcur : st.current = []
    · simp [stTokens, hcur, pySplit_single w hne hw, pySplit_nil]
    · simp only [stTokens, hcur, if_neg hcur, if_false]
      rw [show pySplit (st.current ++ ' ' :: w) = splitWsAux (st.current ++ ' ' :: w) [] from rfl]
      rw [splitWsAux_ws_append ' ' (by decide) st.current w []]
      rw [pySplit_single w hne hw]
      simp [pySplit, List.append_assoc]

theorem stTokens_foldWords (maxChars : Nat) :
    ∀ (ws : List (List Char)) (st : ChunkState),
      (∀ w ∈ ws, w ≠ [] ∧ (∀ c ∈ w, isWs c = false) ∧ w.length ≤ maxChars) →
      stTokens (ws.foldl (addWord maxChars) st) = stTokens st ++ ws := by
  intro ws
  induction ws with
  | nil => intro st _; simp
  | cons w ws' ih =>
    intro st h
    have hw := h w (List.mem_cons_self w ws')
    show stTokens (ws'.foldl (addWord maxChars) (addWord maxChars st w)) = _
    rw [ih (addWord maxChars st w) (fun v hv => h v (List.mem_cons_of_mem w hv))]
    rw [stTokens_addWord maxChars st w hw.1 hw.2.1 hw.2.2]
    simp

theorem stTokens_addSentence (maxChars : Nat) (st : ChunkState) (sentence : List Char)
    (hsen : ∀ w ∈ pySplit sentence, w.length ≤ maxChars) :
    stTokens (addSentence maxChars st sentence) = stTokens st ++ pySplit sentence := by
  rw [addSentence]
  by_cases hover : st.current.length + sentence.length > maxChars
  · rw [if_pos hover]
    by_cases hcur : st.current ≠ []
    · rw [if_pos hcur]
      simp [stTokens, pySplit_pyStrip, List.append_assoc]
    · rw [if_neg hcur]
      push_neg at hcur
      refine stTokens_foldWords maxChars (pySplit sentence) st ?_
      intro w hw
      have hprops := splitWsAux_mem sentence [] (by simp) w hw
      exact ⟨hprops.1, hprops.2, hsen w hw⟩
  · rw [if_neg hover]
    by_cases hcur : st.current = []
    · simp [stTokens, hcur, pySplit_nil]
    · simp only [stTokens, hcur, if_neg hcur, if_false]
      rw [show pySplit (st.current ++ ' ' :: sentence)
          = splitWsAux (st.current ++ ' ' :: sentence) [] from rfl]
      rw [splitWsAux_ws_append ' ' (by decide) st.current sentence []]
      simp [pySplit, List.append_assoc]

theorem stTokens_foldSentences (maxChars : Nat) :
    ∀ (sentences : List (List Char)) (st : ChunkState),
      (∀ sen ∈ sentences, ∀ w ∈ pySplit sen, w.length ≤ maxChars) →
      stTokens (sentences.foldl (addSentence maxChars) st)
        = stTokens st ++ (sentences.map pySplit).flatten := by
  intro sentences
  induction sentences with
  | nil => intro st _; simp
  | cons sen rest ih =>
    intro st h
    show stTokens (rest.foldl (addSentence maxChars) (addSentence maxChars st sen)) = _
    rw [ih (addSentence maxChars st sen) (fun s hs => h s (List.mem_cons_of_mem sen hs))]
    rw [stTokens_addSentence maxChars st sen (h sen (List.mem_cons_self sen rest))]
    simp [List.append_assoc]

theorem chunkCore_tokens (text : List Char) (maxChars : Nat)
    (h : ∀ w ∈ pySplit text, w.length ≤ maxChars) :
    ((chunkCore text maxChars).map pySplit).flatten = pySplit text := by
  rw [chunkCore]
  by_cases hlen : text.length ≤ maxChars
  · rw [if_pos hlen]
    simp
  · rw [if_neg hlen]
    have hsen : ∀ sen ∈ reSplitSentences text, ∀ w ∈ pySplit sen, w.length ≤ maxChars := by
      intro sen hs w hw
      refine h w ?_
      rw [← reSplit_tokens text]
      exact List.mem_flatten.mpr ⟨pySplit sen, List.mem_map_of_mem pySplit hs, hw⟩
    have hfold := stTokens_foldSentences maxChars (reSplitSentences text) ⟨[], []⟩ hsen
    rw [reSplit_tokens text] at hfold
    have hbase : stTokens ⟨[], []⟩ = [] := rfl
    rw [hbase, List.nil_append] at hfold
    set st := (reSplitSentences text).foldl (addSentence maxChars) ⟨[], []⟩ with hst
    by_cases hcur : st.current ≠ []
    · rw [if_pos hcur]
      rw [← hfold]
      simp [stTokens, pySplit_pyStrip]
    · rw [if_neg hcur]
      push_neg at hcur
      rw [← hfold]
      simp [stTokens, hcur, pySplit_nil]

/-- Claim C3 (amended): chunk_text_by_sentences preserves input token
order whenever no whitespace-separated token of the input exceeds maxChars
(the counterexample forces that proviso: an over-long token reached with an
empty current chunk is truncated, altering the token): under it,
concatenating the tokens of the returned chunks in returned order
reproduces the whitespace-separated token sequence of the input; and for
any input, if its length is at most maxChars the result is exactly [text]. -/
theorem chunk_order_preservation (text : String) (maxChars : Nat)
    (h : ∀ w ∈ pySplitStr text, w.length ≤ maxChars) :
    ((chunk_text_by_sentences text maxChars).map pySplitStr).flatten = pySplitStr text
    ∧ (text.length ≤ maxChars → chunk_text_by_sentences text maxChars = [text]) := by
  have hdata : ∀ w ∈ pySplit text.data, w.length ≤ maxChars := by
    intro w hw
    have := h (String.mk w) (List.mem_map_of_mem String.mk hw)
    exact this
  constructor
  · rw [chunk_text_by_sentences, List.map_map]
    rw [show (pySplitStr ∘ String.mk) = fun l => (pySplit l).map String.mk from rfl]
    rw [show (fun l => (pySplit l).map String.mk)
        = (List.map String.mk ∘ pySplit) from rfl]
    rw [← List.map_map, ← List.map_flatten, chunkCore_tokens text.data maxChars hdata]
    rfl
  · intro hlen
    rw [chunk_text_by_sentences, chunkCore, if_pos (show text.data.length ≤ maxChars from hlen)]
    rfl

/-- Claim C3, counterexample to the unconditional claim: the input
"BBBBBBBBBBB x" (an 11-character word, maxChars 10) chunks to tokens
["BBBBBBBBBB", "x"] — the first token was truncated, so the concatenated
chunks do not reproduce the original token sequence ["BBBBBBBBBBB", "x"]. -/
theorem chunk_order_counterexample :
    ((chunk_text_by_sentences "BBBBBBBBBBB x" 10).map pySplitStr).flatten
        = ["BBBBBBBBBB", "x"]
    ∧ pySplitStr "BBBBBBBBBBB x" = ["BBBBBBBBBBB", "x"]
    ∧ (["BBBBBBBBBB", "x"] == ["BBBBBBBBBBB", "x"]) = false := by
  decide

/-- Claim C3, witness: a three-sentence input whose tokens all fit yields
chunks whose concatenated tokens equal the input's tokens. -/
theorem chunk_order_preservation_witness :
    ((chunk_text_by_sentences "One two. Three four. Five." 12).map pySplitStr).flatten
      = pySplitStr "One two. Three four. Five." :=
  (chunk_order_preservation "One two. Three four. Five." 12 (by decide)).1
